import Mathlib

/-!
Shallow embedding of the iSAC adaptive pitch filter
(`modules/audio_coding/codecs/isac/main/source/pitch_filter.c`).

Samples are modelled as exact rationals (`ℚ`); array buffers as `List ℚ`
with the C read `a[i]` rendered as `List.getD` and the C write `a[i] = v`
as `List.set`.  The read-only input signal `in_data` is modelled as a
total function `Nat → ℚ`.
-/

namespace IsacPitch

set_option maxRecDepth 8000

/-- Modelled from the spec: order of the damping filter ("5-tap symmetric
damping-filter kernel"); the constant `PITCH_DAMPORDER` lives in a codec
header that is not part of this excerpt. -/
def PITCH_DAMPORDER : Nat := 5

/-- Modelled from the spec: number of taps of the fractional-delay
interpolation filter ("interpolation order (9 taps)"); constant
`PITCH_FRACORDER` is in a missing header. -/
def PITCH_FRACORDER : Nat := 9

/-- Modelled from the spec: number of fractional-lag bins ("fractional
resolution (8 bins)"); constant `PITCH_FRACS` is in a missing header. -/
def PITCH_FRACS : Nat := 8

/-- Modelled from the spec: samples per 30 ms frame at the codec's fixed
8 kHz internal rate (source comments: "input signal of 30 ms at 8 kHz
sample-rate"); constant `PITCH_FRAME_LEN` is in a missing header. -/
def PITCH_FRAME_LEN : Nat := 240

/-- Modelled from the spec: 4 pitch sub-frames per frame; constant
`PITCH_SUBFRAMES` is in a missing header. -/
def PITCH_SUBFRAMES : Nat := 4

/-- Modelled from the spec: granules subdividing each sub-frame; the
spec leaves the exact number open, iSAC uses 5; constant
`PITCH_GRAN_PER_SUBFRAME` is in a missing header. -/
def PITCH_GRAN_PER_SUBFRAME : Nat := 5

/-- Modelled from the spec: samples per granule,
`PITCH_FRAME_LEN / PITCH_SUBFRAMES / PITCH_GRAN_PER_SUBFRAME`; constant
`PITCH_UPDATE` is in a missing header. -/
def PITCH_UPDATE : Nat := 12

/-- Modelled from the spec: persistent history length, covering the
maximum lag plus interpolation margin; iSAC uses
`PITCH_MAX_LAG + 50 = 190`; constant `PITCH_BUFFSIZE` is in a missing
header. -/
def PITCH_BUFFSIZE : Nat := 190

/-- Modelled from the spec: working-buffer length
`PITCH_FRAME_LEN + PITCH_BUFFSIZE`; constant `PITCH_INTBUFFSIZE` is in a
missing header. -/
def PITCH_INTBUFFSIZE : Nat := 430

/-- Modelled from the spec: lookahead span, 3 ms at 8 kHz = 24 samples
(source comments: "3 millisecond lookahead"); constant `QLOOKAHEAD` is in
a missing header. -/
def QLOOKAHEAD : Nat := 24

/-- Modelled from the spec: the fixed filter delay added to the lag in
`Update`; iSAC uses 1.5; constant `PITCH_FILTDELAY` is in a missing
header. -/
def PITCH_FILTDELAY : ℚ := 1.5

/-- Modelled from the spec: upward lag-jump threshold ratio (up-ratio
> 1); iSAC uses 1.5; constant `PITCH_UPSTEP` is in a missing header. -/
def PITCH_UPSTEP : ℚ := 1.5

/-- Modelled from the spec: downward lag-jump threshold ratio (down-ratio
< 1); iSAC uses 0.67; constant `PITCH_DOWNSTEP` is in a missing
header. -/
def PITCH_DOWNSTEP : ℚ := 0.67

/-- The 5-tap damping-filter kernel `kDampFilter`. -/
def kDampFilter : List ℚ := [-0.07, 0.25, 0.64, 0.25, -0.07]

/-- The 8 × 9 fractional-delay interpolation table `kIntrpCoef`. -/
def kIntrpCoef : List (List ℚ) := [
    [-0.02239172458614,  0.06653315052934, -0.16515880017569,  0.60701333734125,
     0.64671399919202, -0.20249000396417,  0.09926548334755, -0.04765933793109,
     0.01754159521746],
    [-0.01985640750434,  0.05816126837866, -0.13991265473714,  0.44560418147643,
     0.79117042386876, -0.20266133815188,  0.09585268418555, -0.04533310458084,
     0.01654127246314],
    [-0.01463300534216,  0.04229888475060, -0.09897034715253,  0.28284326017787,
     0.90385267956632, -0.16976950138649,  0.07704272393639, -0.03584218578311,
     0.01295781500709],
    [-0.00764851320885,  0.02184035544377, -0.04985561057281,  0.13083306574393,
     0.97545011664662, -0.10177807997561,  0.04400901776474, -0.02010737175166,
     0.00719783432422],
    [-0.00000000000000,  0.00000000000000, -0.00000000000001,  0.00000000000001,
     0.99999999999999,  0.00000000000001, -0.00000000000001,  0.00000000000000,
     -0.00000000000000],
    [0.00719783432422, -0.02010737175166,  0.04400901776474, -0.10177807997562,
     0.97545011664663,  0.13083306574393, -0.04985561057280,  0.02184035544377,
     -0.00764851320885],
    [0.01295781500710, -0.03584218578312,  0.07704272393640, -0.16976950138650,
     0.90385267956634,  0.28284326017785, -0.09897034715252,  0.04229888475059,
     -0.01463300534216],
    [0.01654127246315, -0.04533310458085,  0.09585268418557, -0.20266133815190,
     0.79117042386878,  0.44560418147640, -0.13991265473712,  0.05816126837865,
     -0.01985640750433]]

/-- Total lookup into `kIntrpCoef`: the C code indexes the table with the
derived fraction index without any bounds check; the `Option` result makes
the out-of-bounds access observable in the embedding. -/
def kIntrpCoefGet (i : ℤ) : Option (List ℚ) :=
  if 0 ≤ i then kIntrpCoef.get? i.toNat else none

/-- `WebRtcIsac_lrint` (from `os_specific_inline.h`, not in this excerpt):
round to nearest with ties to even, the default C `lrint` behaviour. -/
def lrint (x : ℚ) : ℤ :=
  let f : ℤ := ⌊x⌋
  let r : ℚ := x - (f : ℚ)
  if r < 1/2 then f
  else if 1/2 < r then f + 1
  else if f % 2 = 0 then f else f + 1

/-- The four operating modes of `PitchFilterOperation`. -/
inductive PitchFilterOperation where
  | kPitchFilterPre
  | kPitchFilterPost
  | kPitchFilterPreLa
  | kPitchFilterPreGain
  deriving DecidableEq, Repr

/-- Modelled from the spec: the persistent per-channel state `PitchFiltstr`
(its struct declaration is in a header not in this excerpt; the source file
reads and writes its fields `ubuf`, `ystate`, `oldlagp`, `oldgainp`). -/
structure PitchFiltstr where
  ubuf : List ℚ
  ystate : List ℚ
  oldlagp : ℚ
  oldgainp : ℚ
  deriving DecidableEq, Repr

/-- The transient per-call working state `PitchFilterParam`. -/
structure PitchFilterParam where
  buffer : List ℚ
  damper_state : List ℚ
  interpol_coeff : List ℚ
  gain : ℚ
  lag : ℚ
  lag_offset : ℤ
  sub_frame : Nat
  mode : PitchFilterOperation
  num_samples : Nat
  index : Nat
  damper_state_dg : List (List ℚ)
  gain_mult : List ℚ
  deriving DecidableEq, Repr

/-- Read of a buffer at a signed index (total; the C code would be reading
out of bounds for a negative index). -/
def getQ (l : List ℚ) (i : ℤ) : ℚ :=
  if 0 ≤ i then l.getD i.toNat 0 else 0

/-- Inner product of two coefficient/state lists (termwise, stopping at the
shorter list). -/
def innerProd : List ℚ → List ℚ → ℚ
  | a :: as, b :: bs => a * b + innerProd as bs
  | _, _ => 0

/-- The fractional-pitch sum of `FilterSegment`:
`sum += buffer[pos_lag + m] * interpol_coeff[m]` for `m = 0 .. 8`. -/
def fracSum (buf : List ℚ) (pos_lag : ℤ) (coeff : List ℚ) : ℚ :=
  (List.range PITCH_FRACORDER).foldl
    (fun acc (m : Nat) => acc + getQ buf (pos_lag + (m : ℤ)) * coeff.getD m 0) 0

/-- The trial fractional-pitch sum of the gain-search branch:
`sum2 += out_dg[j][lag_index + m] * interpol_coeff[m]` for
`m = m_tmp .. 8` (samples before the start of `out_dg[j]` count as 0). -/
def trialFracSum (row : List ℚ) (lag_index : ℤ) (m_tmp : Nat)
    (coeff : List ℚ) : ℚ :=
  (List.range PITCH_FRACORDER).foldl
    (fun acc (m : Nat) =>
      if m_tmp ≤ m then
        acc + row.getD (lag_index + (m : ℤ)).toNat 0 * coeff.getD m 0
      else acc) 0

/-- One-slot shift of a damper memory: `state[m] = state[m-1]` for
`m = 4 .. 1` (slot 0 keeps its old value until overwritten). -/
def dampShiftRaw (ds : List ℚ) : List ℚ :=
  ds.getD 0 0 :: ds.take (PITCH_DAMPORDER - 1)

/-- The body of the per-sample loop of `FilterSegment` for one sample:
shift the damper memory, compute the fractional-pitch value, scale by the
gain into damper slot 0, run the gain-search trial branch when in
`kPitchFilterPreGain` mode, apply the damping filter, write
`out_data[index] = in_data[index] - sum` and
`buffer[pos] = in_data[index] + out_data[index]`, and advance the index. -/
def FilterSample (in_data : Nat → ℚ) (p : PitchFilterParam)
    (out_data : List ℚ) (out_dg : List (List ℚ)) :
    PitchFilterParam × List ℚ × List (List ℚ) :=
  let pos : Nat := p.index + PITCH_BUFFSIZE
  let pos_lag : ℤ := (pos : ℤ) - p.lag_offset
  let sum : ℚ := fracSum p.buffer pos_lag p.interpol_coeff
  let damper : List ℚ := p.gain * sum :: p.damper_state.take (PITCH_DAMPORDER - 1)
  let dgOdg : List (List ℚ) × List (List ℚ) :=
    if p.mode = PitchFilterOperation.kPitchFilterPreGain then
      let lag_index : ℤ := (p.index : ℤ) - p.lag_offset
      let m_tmp : Nat := if lag_index < 0 then (-lag_index).toNat else 0
      let dg1 : List (List ℚ) := p.damper_state_dg.map dampShiftRaw
      let dg2 : List (List ℚ) :=
        (List.range (p.sub_frame + 1)).foldl
          (fun dg j =>
            let sum2 : ℚ :=
              trialFracSum (out_dg.getD j []) lag_index m_tmp p.interpol_coeff
            dg.set j ((dg.getD j []).set 0
              (p.gain_mult.getD j 0 * sum + p.gain * sum2))) dg1
      let odg1 : List (List ℚ) :=
        (List.range (p.sub_frame + 1)).foldl
          (fun odg j =>
            odg.set j ((odg.getD j []).set p.index
              (-(innerProd (dg2.getD j []) kDampFilter)))) out_dg
      (dg2, odg1)
    else (p.damper_state_dg, out_dg)
  let damped : ℚ := innerProd damper kDampFilter
  let outv : ℚ := in_data p.index - damped
  let out1 : List ℚ := out_data.set p.index outv
  let buf1 : List ℚ := p.buffer.set pos (in_data p.index + outv)
  ({ p with
      buffer := buf1
      damper_state := damper
      damper_state_dg := dgOdg.1
      index := p.index + 1 },
    out1, dgOdg.2)

/-- The per-sample loop of `FilterSegment`, run `n` times. -/
def FilterSegmentGo (in_data : Nat → ℚ) :
    Nat → PitchFilterParam → List ℚ → List (List ℚ) →
    PitchFilterParam × List ℚ × List (List ℚ)
  | 0, p, out, odg => (p, out, odg)
  | n + 1, p, out, odg =>
    let r := FilterSample in_data p out odg
    FilterSegmentGo in_data n r.1 r.2.1 r.2.2

/-- `FilterSegment`: filter `num_samples` consecutive samples. -/
def FilterSegment (in_data : Nat → ℚ) (p : PitchFilterParam)
    (out_data : List ℚ) (out_dg : List (List ℚ)) :
    PitchFilterParam × List ℚ × List (List ℚ) :=
  FilterSegmentGo in_data p.num_samples p out_data out_dg

/-- Integer lag offset computed by `Update`:
`lag_offset = WebRtcIsac_lrint(lag + PITCH_FILTDELAY + 0.5)`. -/
def lagOffsetOf (lag : ℚ) : ℤ :=
  lrint (lag + PITCH_FILTDELAY + 0.5)

/-- Fraction index computed by `Update`:
`fraction = lag_offset - (lag + PITCH_FILTDELAY)`;
`fraction_index = WebRtcIsac_lrint(PITCH_FRACS * fraction - 0.5)`. -/
def fractionIndexOf (lag : ℚ) : ℤ :=
  lrint ((PITCH_FRACS : ℚ) * ((lagOffsetOf lag : ℚ) - (lag + PITCH_FILTDELAY)) - 0.5)

/-- The differential gain-multiplier step of `Update` in
`kPitchFilterPreGain` mode: add 0.2 to the current sub-frame's multiplier,
clamp it at 1.0, and subtract 0.2 from the previous sub-frame's multiplier
when the sub-frame index is positive. -/
def UpdateGainMult (gm : List ℚ) (sub_frame : Nat) : List ℚ :=
  let g1 := gm.set sub_frame (gm.getD sub_frame 0 + 0.2)
  let g2 := if 1 < g1.getD sub_frame 0 then g1.set sub_frame 1 else g1
  if 0 < sub_frame then
    g2.set (sub_frame - 1) (g2.getD (sub_frame - 1) 0 - 0.2)
  else g2

/-- `Update`: recompute the integer lag offset and the interpolation
coefficients from the current lag, and, in gain-search mode, advance the
trial gain multipliers. -/
def Update (p : PitchFilterParam) : PitchFilterParam :=
  { p with
      lag_offset := lagOffsetOf p.lag
      interpol_coeff :=
        (kIntrpCoefGet (fractionIndexOf p.lag)).getD (List.replicate PITCH_FRACORDER 0)
      gain_mult :=
        if p.mode = PitchFilterOperation.kPitchFilterPreGain then
          UpdateGainMult p.gain_mult p.sub_frame
        else p.gain_mult }

/-- The enhancement factor `kEnhancer` of `FilterFrame`. -/
def kEnhancer : ℚ := 1.3

/-- The initial working state of `FilterFrame`: the persistent history is
copied into the working buffer and the remaining capacity is zero-filled,
the damper memory is copied, `index` and `lag_offset` are cleared.  The C
code leaves the remaining fields uninitialized; they are all written
before being read (the gain-search fields are cleared when that mode is
active), so they are zero-initialized here. -/
def initParams (st : PitchFiltstr) (mode : PitchFilterOperation) :
    PitchFilterParam :=
  { buffer := st.ubuf.take PITCH_BUFFSIZE ++
      List.replicate (PITCH_INTBUFFSIZE + QLOOKAHEAD - PITCH_BUFFSIZE) 0
    damper_state := st.ystate.take PITCH_DAMPORDER
    interpol_coeff := List.replicate PITCH_FRACORDER 0
    gain := 0
    lag := 0
    lag_offset := 0
    sub_frame := 0
    mode := mode
    num_samples := 0
    index := 0
    damper_state_dg := List.replicate 4 (List.replicate PITCH_DAMPORDER 0)
    gain_mult := List.replicate 4 0 }

/-- The lag-jump guard of `FilterFrame`: when the first sub-frame's target
lag is above `PITCH_UPSTEP * old_lag` or below `PITCH_DOWNSTEP * old_lag`,
snap the interpolation anchors to the first sub-frame's target lag and
gain (and, in gain-search mode, set the first trial gain multiplier
to 1.0); otherwise keep the anchors from the persistent state. -/
def SeedAnchors (old_lag old_gain lag0 gain0 : ℚ)
    (mode : PitchFilterOperation) (gm : List ℚ) : ℚ × ℚ × List ℚ :=
  if lag0 > PITCH_UPSTEP * old_lag ∨ lag0 < PITCH_DOWNSTEP * old_lag then
    (lag0, gain0,
      if mode = PitchFilterOperation.kPitchFilterPreGain then gm.set 0 1 else gm)
  else (old_lag, old_gain, gm)

/-- One granule of the sub-frame loop of `FilterFrame`: advance the gain
and lag by their interpolation deltas, call `Update`, then filter a
segment of `num_samples` samples. -/
def RunGranule (in_data : Nat → ℚ) (lag_delta gain_delta : ℚ)
    (acc : PitchFilterParam × List ℚ × List (List ℚ)) :
    PitchFilterParam × List ℚ × List (List ℚ) :=
  let p := Update { acc.1 with
    gain := acc.1.gain + gain_delta
    lag := acc.1.lag + lag_delta }
  FilterSegment in_data p acc.2.1 acc.2.2

/-- One sub-frame of `FilterFrame`: compute the per-granule interpolation
deltas toward this sub-frame's target lag and gain, seed the working lag
and gain from the anchors, run the granule loop, and hand the sub-frame
targets on as the next anchors. -/
def RunSubframe (in_data : Nat → ℚ) (lags gains2 : List ℚ) (m : Nat)
    (a : (PitchFilterParam × List ℚ × List (List ℚ)) × ℚ × ℚ) :
    (PitchFilterParam × List ℚ × List (List ℚ)) × ℚ × ℚ :=
  let old_lag := a.2.1
  let old_gain := a.2.2
  let lag_delta := (lags.getD m 0 - old_lag) / (PITCH_GRAN_PER_SUBFRAME : ℚ)
  let gain_delta := (gains2.getD m 0 - old_gain) / (PITCH_GRAN_PER_SUBFRAME : ℚ)
  let p1 := { a.1.1 with sub_frame := m, lag := old_lag, gain := old_gain }
  let acc := (List.range PITCH_GRAN_PER_SUBFRAME).foldl
    (fun b _ => RunGranule in_data lag_delta gain_delta b) (p1, a.1.2.1, a.1.2.2)
  (acc, lags.getD m 0, gains2.getD m 0)

/-- The main part of `FilterFrame`: initialize the working state, apply
the lag-jump guard, and walk the 4 sub-frames.  Returns the working state,
output buffers and the final interpolation anchors. -/
def FilterFrameMain (in_data : Nat → ℚ) (st : PitchFiltstr)
    (lags gains2 : List ℚ) (mode : PitchFilterOperation)
    (out : List ℚ) (odg : List (List ℚ)) :
    (PitchFilterParam × List ℚ × List (List ℚ)) × ℚ × ℚ :=
  let p0 := initParams st mode
  let seeded := SeedAnchors st.oldlagp st.oldgainp
    (lags.getD 0 0) (gains2.getD 0 0) mode p0.gain_mult
  let p1 := { p0 with gain_mult := seeded.2.2, num_samples := PITCH_UPDATE }
  (List.range PITCH_SUBFRAMES).foldl
    (fun a m => RunSubframe in_data lags gains2 m a)
    ((p1, out, odg), seeded.1, seeded.2.1)

/-- The result of one `FilterFrame` call: the output buffer, the persistent
state after the call, the (possibly rescaled) gains array, the gain-search
trial outputs, and — exposed for specification purposes — the final
transient working state. -/
structure FrameResult where
  out : List ℚ
  state : PitchFiltstr
  gains : List ℚ
  out_dg : List (List ℚ)
  params : PitchFilterParam
  deriving DecidableEq, Repr

/-- `FilterFrame`: filter one 30 ms frame.  In `kPitchFilterPreGain` mode
the trial buffers are cleared on entry; in `kPitchFilterPost` mode all 4
gains are scaled by `-kEnhancer` in place.  After the 4 sub-frames, for
every mode except gain search, the buffer tail, the damper memory and the
final anchors are committed back to the persistent state; then, in
lookahead and gain-search modes, one extra lookahead-length segment is
filtered as part of the last sub-frame. -/
def FilterFrame (in_data : Nat → ℚ) (st : PitchFiltstr)
    (lags gains : List ℚ) (mode : PitchFilterOperation)
    (out : List ℚ) (odg : List (List ℚ)) : FrameResult :=
  let gains2 :=
    if mode = PitchFilterOperation.kPitchFilterPost then
      (List.range PITCH_SUBFRAMES).foldl
        (fun g n => g.set n (g.getD n 0 * (-kEnhancer))) gains
    else gains
  let odg0 :=
    if mode = PitchFilterOperation.kPitchFilterPreGain then
      List.replicate PITCH_SUBFRAMES
        (List.replicate (PITCH_FRAME_LEN + QLOOKAHEAD) 0)
    else odg
  let r1 := FilterFrameMain in_data st lags gains2 mode out odg0
  let p := r1.1.1
  let st1 :=
    if mode = PitchFilterOperation.kPitchFilterPreGain then st
    else
      { ubuf := (p.buffer.drop PITCH_FRAME_LEN).take PITCH_BUFFSIZE
        ystate := p.damper_state
        oldlagp := r1.2.1
        oldgainp := r1.2.2 }
  let r2 :=
    if mode = PitchFilterOperation.kPitchFilterPreGain ∨
       mode = PitchFilterOperation.kPitchFilterPreLa then
      FilterSegment in_data
        { p with sub_frame := PITCH_SUBFRAMES - 1, num_samples := QLOOKAHEAD }
        r1.1.2.1 r1.1.2.2
    else r1.1
  { out := r2.2.1
    state := st1
    gains := gains2
    out_dg := r2.2.2
    params := r2.1 }

/-- Entry point `WebRtcIsac_PitchfilterPre`. -/
def WebRtcIsac_PitchfilterPre (in_data : Nat → ℚ) (out_data : List ℚ)
    (pf_state : PitchFiltstr) (lags gains : List ℚ) : FrameResult :=
  FilterFrame in_data pf_state lags gains
    PitchFilterOperation.kPitchFilterPre out_data []

/-- Entry point `WebRtcIsac_PitchfilterPre_la`. -/
def WebRtcIsac_PitchfilterPre_la (in_data : Nat → ℚ) (out_data : List ℚ)
    (pf_state : PitchFiltstr) (lags gains : List ℚ) : FrameResult :=
  FilterFrame in_data pf_state lags gains
    PitchFilterOperation.kPitchFilterPreLa out_data []

/-- Entry point `WebRtcIsac_PitchfilterPre_gains`. -/
def WebRtcIsac_PitchfilterPre_gains (in_data : Nat → ℚ) (out_data : List ℚ)
    (out_dg : List (List ℚ)) (pf_state : PitchFiltstr)
    (lags gains : List ℚ) : FrameResult :=
  FilterFrame in_data pf_state lags gains
    PitchFilterOperation.kPitchFilterPreGain out_data out_dg

/-- Entry point `WebRtcIsac_PitchfilterPost`. -/
def WebRtcIsac_PitchfilterPost (in_data : Nat → ℚ) (out_data : List ℚ)
    (pf_state : PitchFiltstr) (lags gains : List ℚ) : FrameResult :=
  FilterFrame in_data pf_state lags gains
    PitchFilterOperation.kPitchFilterPost out_data []

/-! ### Concrete test vectors -/

/-- A 30 ms input frame that is silent except for the first lookahead
sample. -/
def inC5 : Nat → ℚ := fun i => if i = 240 then 1 else 0

/-- A persistent state with zero history, zero damper memory, last lag
20.25 and last gain 0. -/
def stC5 : PitchFiltstr :=
  { ubuf := List.replicate PITCH_BUFFSIZE 0
    ystate := List.replicate PITCH_DAMPORDER 0
    oldlagp := 20.25
    oldgainp := 0 }

/-- A constant lag trajectory at 20.25 samples. -/
def lagsC5 : List ℚ := [20.25, 20.25, 20.25, 20.25]

/-- A gain trajectory ramping to 1 in the last sub-frame. -/
def gainsC5 : List ℚ := [0, 0, 0, 1]

/-- The working state reached by the main loop of `FilterFrame` on the
`inC5`/`stC5`/`lagsC5`/`gainsC5` input in lookahead mode: the frame part
of the signal is silent, so every numeric buffer is still zero, while the
interpolation parameters reflect the constant lag 20.25 and the gain has
ramped to 1. -/
def pC5main : PitchFilterParam :=
  { buffer := List.replicate (PITCH_INTBUFFSIZE + QLOOKAHEAD) 0
    damper_state := List.replicate PITCH_DAMPORDER 0
    interpol_coeff := kIntrpCoef.getD 2 []
    gain := 1
    lag := 20.25
    lag_offset := 22
    sub_frame := 3
    mode := PitchFilterOperation.kPitchFilterPreLa
    num_samples := PITCH_UPDATE
    index := PITCH_FRAME_LEN
    damper_state_dg := List.replicate 4 (List.replicate PITCH_DAMPORDER 0)
    gain_mult := List.replicate 4 0 }

/-- Invariant of a zero-gain run: the working gain is 0, the damper
memory stays all-zero, the granule size is the protocol constant, and the
output buffer holds the input copied up to the current index over the
caller's original buffer `out0`. -/
def ZeroGainInv (in_data : Nat → ℚ) (out0 : List ℚ)
    (t : PitchFilterParam × List ℚ × List (List ℚ)) : Prop :=
  t.1.gain = 0 ∧
  t.1.damper_state = List.replicate PITCH_DAMPORDER 0 ∧
  t.1.num_samples = PITCH_UPDATE ∧
  t.2.1.length = out0.length ∧
  ∀ i, t.2.1.getD i 0 = if i < t.1.index then in_data i else out0.getD i 0

/-! ### Helper lemmas -/

theorem getD_set_self (l : List ℚ) (i : Nat) (v : ℚ) (h : i < l.length) :
    (l.set i v).getD i 0 = v := by
  simp [List.getD_eq_getElem?_getD, List.getElem?_set_self h]

theorem getD_set_ne (l : List ℚ) (i j : Nat) (v : ℚ) (h : i ≠ j) :
    (l.set i v).getD j 0 = l.getD j 0 := by
  simp [List.getD_eq_getElem?_getD, List.getElem?_set_ne h]

theorem getD_replicate_zero (n i : Nat) :
    (List.replicate n (0 : ℚ)).getD i 0 = 0 := by
  by_cases h : i < n <;>
    simp [List.getD_eq_getElem?_getD, List.getElem?_replicate, h]

theorem set_replicate_zero (n i : Nat) :
    (List.replicate n (0 : ℚ)).set i 0 = List.replicate n 0 :=
  List.set_replicate_self

theorem getQ_replicate_zero (n : Nat) (i : ℤ) :
    getQ (List.replicate n 0) i = 0 := by
  unfold getQ
  split
  · exact getD_replicate_zero n _
  · rfl

theorem fracSum_replicate_zero (n : Nat) (pos_lag : ℤ) (coeff : List ℚ) :
    fracSum (List.replicate n 0) pos_lag coeff = 0 := by
  simp [fracSum, PITCH_FRACORDER, List.range_succ, getQ_replicate_zero]

theorem innerProd_replicate_zero (k : Nat) (l : List ℚ) :
    innerProd (List.replicate k 0) l = 0 := by
  induction k generalizing l with
  | zero => rfl
  | succ k ih =>
    cases l with
    | nil => rfl
    | cons b bs => simp [List.replicate, innerProd, ih]

theorem UpdateGainMult_getD (gm : List ℚ) (s j : Nat)
    (hlen : gm.length = 4) (hs : s < 4) (hj : j < 4) :
    (UpdateGainMult gm s).getD j 0 =
      if j = s then min (gm.getD s 0 + 0.2) 1
      else if j + 1 = s then gm.getD j 0 - 0.2
      else gm.getD j 0 := by
  simp only [UpdateGainMult]
  have hslen : s < gm.length := by omega
  have hjlen : j < gm.length := by omega
  have hg1 : (gm.set s (gm.getD s 0 + 0.2)).getD s 0 = gm.getD s 0 + 0.2 :=
    getD_set_self _ _ _ hslen
  by_cases hjs : j = s
  · subst hjs
    rcases lt_or_le 1 ((gm.set j (gm.getD j 0 + 0.2)).getD j 0) with hc | hc
    · rw [if_pos hc]
      have h1 : ((gm.set j (gm.getD j 0 + 0.2)).set j 1).getD j 0 = 1 :=
        getD_set_self _ _ _ (by simpa using hjlen)
      have hmin : min (gm.getD j 0 + 0.2) 1 = 1 := by
        rw [hg1] at hc
        exact min_eq_right hc.le
      by_cases hpos : 0 < j
      · rw [if_pos hpos, getD_set_ne _ _ _ _ (by omega), h1, if_pos rfl, hmin]
      · rw [if_neg hpos, h1, if_pos rfl, hmin]
    · rw [if_neg (not_lt.mpr hc)]
      rw [hg1] at hc
      have hmin : min (gm.getD j 0 + 0.2) 1 = gm.getD j 0 + 0.2 :=
        min_eq_left hc
      by_cases hpos : 0 < j
      · rw [if_pos hpos, getD_set_ne _ _ _ _ (by omega), hg1, if_pos rfl, hmin]
      · rw [if_neg hpos, hg1, if_pos rfl, hmin]
  · by_cases hjp : j + 1 = s
    · have hpos : 0 < s := by omega
      rw [if_pos hpos]
      have hs1 : s - 1 = j := by omega
      have hsetself :
          ∀ l2 : List ℚ, l2.length = gm.length →
            (l2.set (s - 1) (l2.getD (s - 1) 0 - 0.2)).getD j 0 =
              l2.getD j 0 - 0.2 := by
        intro l2 hl2
        rw [hs1, getD_set_self _ _ _ (by omega)]
      split
      · rw [hsetself _ (by simp), getD_set_ne _ _ _ _ (Ne.symm hjs),
          getD_set_ne _ _ _ _ (Ne.symm hjs)]
      · rw [hsetself _ (by simp), getD_set_ne _ _ _ _ (Ne.symm hjs)]
    · rw [if_neg hjs, if_neg hjp]
      have step1 : (gm.set s (gm.getD s 0 + 0.2)).getD j 0 = gm.getD j 0 :=
        getD_set_ne _ _ _ _ (Ne.symm hjs)
      have step2 :
          ((gm.set s (gm.getD s 0 + 0.2)).set s 1).getD j 0 = gm.getD j 0 := by
        rw [getD_set_ne _ _ _ _ (Ne.symm hjs), step1]
      by_cases hpos : 0 < s
      · rw [if_pos hpos]
        have hne : s - 1 ≠ j := by omega
        split
        · rw [getD_set_ne _ _ _ _ hne, step2]
        · rw [getD_set_ne _ _ _ _ hne, step1]
      · rw [if_neg hpos]
        split
        · exact step2
        · exact step1

theorem Update_buffer (p : PitchFilterParam) : (Update p).buffer = p.buffer :=
  rfl

theorem Update_damper_state (p : PitchFilterParam) :
    (Update p).damper_state = p.damper_state := rfl

theorem Update_mode (p : PitchFilterParam) : (Update p).mode = p.mode := rfl

theorem Update_index (p : PitchFilterParam) : (Update p).index = p.index := rfl

theorem Update_num_samples (p : PitchFilterParam) :
    (Update p).num_samples = p.num_samples := rfl

theorem Update_gain (p : PitchFilterParam) : (Update p).gain = p.gain := rfl

theorem Update_lag (p : PitchFilterParam) : (Update p).lag = p.lag := rfl

theorem Update_sub_frame (p : PitchFilterParam) :
    (Update p).sub_frame = p.sub_frame := rfl

theorem Update_gain_mult_of_ne (p : PitchFilterParam)
    (h : p.mode ≠ PitchFilterOperation.kPitchFilterPreGain) :
    (Update p).gain_mult = p.gain_mult := by
  simp [Update, h]

theorem take_replicate_damp :
    (List.replicate PITCH_DAMPORDER (0 : ℚ)).take (PITCH_DAMPORDER - 1) =
      List.replicate 4 0 := by
  decide

theorem cons_zero_replicate :
    (0 : ℚ) :: List.replicate 4 0 = List.replicate PITCH_DAMPORDER 0 := by
  decide

/-- On an all-zero working buffer with all-zero damper memory, a silent
input sample leaves every numeric buffer at zero and only advances the
sample index. -/
theorem FilterSample_silent (in_data : Nat → ℚ) (p : PitchFilterParam)
    (L : Nat) (odg : List (List ℚ))
    (hb : p.buffer = List.replicate (PITCH_INTBUFFSIZE + QLOOKAHEAD) 0)
    (hd : p.damper_state = List.replicate PITCH_DAMPORDER 0)
    (hmode : p.mode ≠ PitchFilterOperation.kPitchFilterPreGain)
    (hin : in_data p.index = 0) :
    FilterSample in_data p (List.replicate L 0) odg =
      ({ p with index := p.index + 1 }, List.replicate L 0, odg) := by
  obtain ⟨buf, ds, ic, g, lg, lo, sf, md, ns, ix, dgs, gmu⟩ := p
  subst hb
  subst hd
  simp only [FilterSample]
  rw [fracSum_replicate_zero, mul_zero, take_replicate_damp,
    cons_zero_replicate, innerProd_replicate_zero, hin, sub_zero,
    add_zero, set_replicate_zero, set_replicate_zero, if_neg hmode]

/-- Iterating the per-sample loop over a silent stretch of the input, on
all-zero buffers, only advances the index. -/
theorem FilterSegmentGo_silent (in_data : Nat → ℚ) (n : Nat)
    (p : PitchFilterParam) (L : Nat) (odg : List (List ℚ))
    (hb : p.buffer = List.replicate (PITCH_INTBUFFSIZE + QLOOKAHEAD) 0)
    (hd : p.damper_state = List.replicate PITCH_DAMPORDER 0)
    (hmode : p.mode ≠ PitchFilterOperation.kPitchFilterPreGain)
    (hin : ∀ i, p.index ≤ i → i < p.index + n → in_data i = 0) :
    FilterSegmentGo in_data n p (List.replicate L 0) odg =
      ({ p with index := p.index + n }, List.replicate L 0, odg) := by
  induction n generalizing p with
  | zero =>
    obtain ⟨buf, ds, ic, g, lg, lo, sf, md, ns, ix, dgs, gmu⟩ := p
    simp [FilterSegmentGo]
  | succ n ih =>
    have hin' : ∀ i, p.index + 1 ≤ i → i < p.index + 1 + n → in_data i = 0 :=
      fun i h1 h2 => hin i (by omega) (by omega)
    have hstep := ih { p with index := p.index + 1 } hb hd hmode hin'
    rw [FilterSegmentGo,
      FilterSample_silent in_data p L odg hb hd hmode
        (hin p.index le_rfl (by omega))]
    dsimp only
    rw [hstep]
    obtain ⟨buf, ds, ic, g, lg, lo, sf, md, ns, ix, dgs, gmu⟩ := p
    dsimp only
    rw [Nat.add_assoc, Nat.add_comm 1 n]

/-- One granule step on all-zero buffers over a silent input stretch:
the gain and lag advance by their deltas, `Update` recomputes the
lag offset and interpolation coefficients, and the index advances by
`num_samples`. -/
theorem RunGranule_silent (in_data : Nat → ℚ) (ld gd : ℚ)
    (p : PitchFilterParam) (L : Nat) (odg : List (List ℚ))
    (hb : p.buffer = List.replicate (PITCH_INTBUFFSIZE + QLOOKAHEAD) 0)
    (hd : p.damper_state = List.replicate PITCH_DAMPORDER 0)
    (hmode : p.mode ≠ PitchFilterOperation.kPitchFilterPreGain)
    (hin : ∀ i, p.index ≤ i → i < p.index + p.num_samples → in_data i = 0) :
    RunGranule in_data ld gd (p, List.replicate L 0, odg) =
      ({ Update { p with gain := p.gain + gd, lag := p.lag + ld } with
          index := p.index + p.num_samples },
        List.replicate L 0, odg) := by
  have h := FilterSegmentGo_silent in_data
    (Update { p with gain := p.gain + gd, lag := p.lag + ld }).num_samples
    (Update { p with gain := p.gain + gd, lag := p.lag + ld }) L odg
    hb hd hmode hin
  unfold RunGranule FilterSegment
  dsimp only
  rw [h, Update_index, Update_num_samples]

/-- Iterating granules over a silent input on all-zero buffers: the gain
and lag ramp linearly, the last `Update` fixes the interpolation
parameters at the final lag, and the index advances. -/
theorem RunGranule_iter_silent (in_data : Nat → ℚ) (ld gd : ℚ) (n : Nat) :
    ∀ (p : PitchFilterParam) (L : Nat) (odg : List (List ℚ)),
    p.buffer = List.replicate (PITCH_INTBUFFSIZE + QLOOKAHEAD) 0 →
    p.damper_state = List.replicate PITCH_DAMPORDER 0 →
    p.mode ≠ PitchFilterOperation.kPitchFilterPreGain →
    (∀ i, p.index ≤ i → i < p.index + p.num_samples * (n + 1) →
      in_data i = 0) →
    (List.range (n + 1)).foldl (fun b _ => RunGranule in_data ld gd b)
        (p, List.replicate L 0, odg) =
      ({ p with
          gain := p.gain + ((n : ℚ) + 1) * gd
          lag := p.lag + ((n : ℚ) + 1) * ld
          lag_offset := lagOffsetOf (p.lag + ((n : ℚ) + 1) * ld)
          interpol_coeff :=
            (kIntrpCoefGet (fractionIndexOf (p.lag + ((n : ℚ) + 1) * ld))).getD
              (List.replicate PITCH_FRACORDER 0)
          index := p.index + p.num_samples * (n + 1) },
        List.replicate L 0, odg) := by
  induction n with
  | zero =>
    intro p L odg hb hd hmode hin
    have hin1 : ∀ i, p.index ≤ i → i < p.index + p.num_samples →
        in_data i = 0 := by
      have hm : p.num_samples * (0 + 1) = p.num_samples := by ring
      intro i h1 h2
      exact hin i h1 (by omega)
    rw [show List.range (0 + 1) = [0] from rfl, List.foldl_cons,
      List.foldl_nil, RunGranule_silent in_data ld gd p L odg hb hd hmode hin1]
    obtain ⟨buf, ds, ic, g, lg, lo, sf, md, ns, ix, dgs, gmu⟩ := p
    simp only [Update] at hmode ⊢
    rw [if_neg hmode]
    norm_num [lagOffsetOf, fractionIndexOf]
  | succ n ih =>
    intro p L odg hb hd hmode hin
    have hmul : p.num_samples * (n + 1 + 1) = p.num_samples * (n + 1) +
        p.num_samples := by ring
    have hin1 : ∀ i, p.index ≤ i → i < p.index + p.num_samples * (n + 1) →
        in_data i = 0 := fun i h1 h2 => hin i h1 (by omega)
    have hstep := ih p L odg hb hd hmode hin1
    rw [List.range_succ, List.foldl_append, hstep, List.foldl_cons,
      List.foldl_nil]
    have hin2 : ∀ i, p.index + p.num_samples * (n + 1) ≤ i →
        i < p.index + p.num_samples * (n + 1) + p.num_samples →
        in_data i = 0 := fun i h1 h2 => hin i (by omega) (by omega)
    rw [RunGranule_silent in_data ld gd
      { p with
          gain := p.gain + ((n : ℚ) + 1) * gd
          lag := p.lag + ((n : ℚ) + 1) * ld
          lag_offset := lagOffsetOf (p.lag + ((n : ℚ) + 1) * ld)
          interpol_coeff :=
            (kIntrpCoefGet (fractionIndexOf (p.lag + ((n : ℚ) + 1) * ld))).getD
              (List.replicate PITCH_FRACORDER 0)
          index := p.index + p.num_samples * (n + 1) }
      L odg hb hd hmode hin2]
    obtain ⟨buf, ds, ic, g, lg, lo, sf, md, ns, ix, dgs, gmu⟩ := p
    simp only [Update] at hmode ⊢
    rw [if_neg hmode]
    have harg : lg + ((n : ℚ) + 1) * ld + ld = lg + ((n : ℚ) + 1 + 1) * ld := by
      ring
    rw [harg]
    have hgarg : g + ((n : ℚ) + 1) * gd + gd = g + ((n : ℚ) + 1 + 1) * gd := by
      ring
    rw [hgarg]
    have hix : ix + ns * (n + 1) + ns = ix + ns * (n + 1 + 1) := by ring
    rw [hix]
    push_cast
    ring_nf

/-- One sub-frame over a silent input on all-zero buffers: the working lag
and gain land exactly on the sub-frame targets, the interpolation
parameters are those of the target lag, one sub-frame's worth of samples
is consumed, and the targets become the next anchors. -/
theorem RunSubframe_silent (in_data : Nat → ℚ) (lags gains2 : List ℚ)
    (m : Nat) (p : PitchFilterParam) (L : Nat) (odg : List (List ℚ))
    (ol og : ℚ)
    (hb : p.buffer = List.replicate (PITCH_INTBUFFSIZE + QLOOKAHEAD) 0)
    (hd : p.damper_state = List.replicate PITCH_DAMPORDER 0)
    (hmode : p.mode ≠ PitchFilterOperation.kPitchFilterPreGain)
    (hin : ∀ i, p.index ≤ i →
      i < p.index + p.num_samples * PITCH_GRAN_PER_SUBFRAME →
      in_data i = 0) :
    RunSubframe in_data lags gains2 m ((p, List.replicate L 0, odg), ol, og) =
      (({ p with
          sub_frame := m
          gain := gains2.getD m 0
          lag := lags.getD m 0
          lag_offset := lagOffsetOf (lags.getD m 0)
          interpol_coeff :=
            (kIntrpCoefGet (fractionIndexOf (lags.getD m 0))).getD
              (List.replicate PITCH_FRACORDER 0)
          index := p.index + p.num_samples * PITCH_GRAN_PER_SUBFRAME },
        List.replicate L 0, odg),
        lags.getD m 0, gains2.getD m 0) := by
  unfold RunSubframe
  dsimp only
  have hiter := RunGranule_iter_silent in_data
    ((lags.getD m 0 - ol) / (PITCH_GRAN_PER_SUBFRAME : ℚ))
    ((gains2.getD m 0 - og) / (PITCH_GRAN_PER_SUBFRAME : ℚ)) 4
    { p with sub_frame := m, lag := ol, gain := og } L odg hb hd hmode hin
  rw [show (List.range PITCH_GRAN_PER_SUBFRAME) = List.range (4 + 1) from rfl,
    hiter]
  obtain ⟨buf, ds, ic, g, lg, lo, sf, md, ns, ix, dgs, gmu⟩ := p
  dsimp only
  have h5 : ((PITCH_GRAN_PER_SUBFRAME : ℕ) : ℚ) = 5 := by
    norm_num [PITCH_GRAN_PER_SUBFRAME]
  have hlag : ol + (((4 : ℕ) : ℚ) + 1) *
      ((lags.getD m 0 - ol) / ((PITCH_GRAN_PER_SUBFRAME : ℕ) : ℚ)) =
      lags.getD m 0 := by
    rw [h5]
    ring
  have hgain : og + (((4 : ℕ) : ℚ) + 1) *
      ((gains2.getD m 0 - og) / ((PITCH_GRAN_PER_SUBFRAME : ℕ) : ℚ)) =
      gains2.getD m 0 := by
    rw [h5]
    ring
  rw [hlag, hgain]
  rfl

theorem initParams_buffer_zero (st : PitchFiltstr) (mode : PitchFilterOperation)
    (hub : st.ubuf = List.replicate PITCH_BUFFSIZE 0) :
    (initParams st mode).buffer =
      List.replicate (PITCH_INTBUFFSIZE + QLOOKAHEAD) 0 := by
  show st.ubuf.take PITCH_BUFFSIZE ++
      List.replicate (PITCH_INTBUFFSIZE + QLOOKAHEAD - PITCH_BUFFSIZE) 0 = _
  rw [hub, List.take_replicate, min_self, ← List.replicate_add]
  norm_num [PITCH_BUFFSIZE, PITCH_INTBUFFSIZE, QLOOKAHEAD]

theorem initParams_damper_zero (st : PitchFiltstr) (mode : PitchFilterOperation)
    (hyst : st.ystate = List.replicate PITCH_DAMPORDER 0) :
    (initParams st mode).damper_state = List.replicate PITCH_DAMPORDER 0 := by
  show st.ystate.take PITCH_DAMPORDER = _
  rw [hyst, List.take_replicate, min_self]

theorem SeedAnchors_gm_of_ne (ol og l0 g0 : ℚ) (mode : PitchFilterOperation)
    (gm : List ℚ) (h : mode ≠ PitchFilterOperation.kPitchFilterPreGain) :
    (SeedAnchors ol og l0 g0 mode gm).2.2 = gm := by
  unfold SeedAnchors
  split <;> simp [h]

theorem SeedAnchors_gain_zero (ol : ℚ) (l0 : ℚ) (mode : PitchFilterOperation)
    (gm : List ℚ) :
    (SeedAnchors ol 0 l0 0 mode gm).2.1 = 0 := by
  unfold SeedAnchors
  split <;> rfl

/-- The main loop of `FilterFrame` on a silent frame with all-zero
persistent history and damper memory: the buffers stay zero, one frame's
worth of samples is consumed, and the final working lag/gain (and the
returned anchors) are the last sub-frame's targets. -/
theorem FilterFrameMain_silent (in_data : Nat → ℚ) (st : PitchFiltstr)
    (lags gains2 : List ℚ) (mode : PitchFilterOperation) (L : Nat)
    (odg : List (List ℚ))
    (hmode : mode ≠ PitchFilterOperation.kPitchFilterPreGain)
    (hub : st.ubuf = List.replicate PITCH_BUFFSIZE 0)
    (hyst : st.ystate = List.replicate PITCH_DAMPORDER 0)
    (hin : ∀ i, i < PITCH_FRAME_LEN → in_data i = 0) :
    FilterFrameMain in_data st lags gains2 mode (List.replicate L 0) odg =
      (({ initParams st mode with
          num_samples := PITCH_UPDATE
          sub_frame := 3
          gain := gains2.getD 3 0
          lag := lags.getD 3 0
          lag_offset := lagOffsetOf (lags.getD 3 0)
          interpol_coeff :=
            (kIntrpCoefGet (fractionIndexOf (lags.getD 3 0))).getD
              (List.replicate PITCH_FRACORDER 0)
          index := PITCH_FRAME_LEN },
        List.replicate L 0, odg),
        lags.getD 3 0, gains2.getD 3 0) := by
  have e240 : PITCH_FRAME_LEN = 240 := rfl
  have e12 : PITCH_UPDATE = 12 := rfl
  have e5 : PITCH_GRAN_PER_SUBFRAME = 5 := rfl
  unfold FilterFrameMain
  dsimp only
  rw [SeedAnchors_gm_of_ne _ _ _ _ _ _ hmode,
    show List.range PITCH_SUBFRAMES = [0, 1, 2, 3] from rfl]
  simp only [List.foldl_cons, List.foldl_nil]
  rw [RunSubframe_silent in_data lags gains2 0,
    RunSubframe_silent in_data lags gains2 1,
    RunSubframe_silent in_data lags gains2 2,
    RunSubframe_silent in_data lags gains2 3]
  · rfl
  all_goals
    first
      | exact initParams_buffer_zero st mode hub
      | exact initParams_damper_zero st mode hyst
      | exact hmode
      | (intro i h1 h2
         simp only [initParams] at h2
         norm_num [PITCH_UPDATE, PITCH_GRAN_PER_SUBFRAME] at h2
         exact hin i (by omega))

theorem FilterSample_gain_eq (in_data : Nat → ℚ) (p : PitchFilterParam)
    (out : List ℚ) (odg : List (List ℚ)) :
    (FilterSample in_data p out odg).1.gain = p.gain := rfl

theorem FilterSample_index_eq (in_data : Nat → ℚ) (p : PitchFilterParam)
    (out : List ℚ) (odg : List (List ℚ)) :
    (FilterSample in_data p out odg).1.index = p.index + 1 := rfl

theorem FilterSample_num_samples_eq (in_data : Nat → ℚ) (p : PitchFilterParam)
    (out : List ℚ) (odg : List (List ℚ)) :
    (FilterSample in_data p out odg).1.num_samples = p.num_samples := rfl

/-- With zero gain and an all-zero damper memory, one filter sample keeps
the damper memory at zero and copies the input sample to the output. -/
theorem FilterSample_gain0 (in_data : Nat → ℚ) (p : PitchFilterParam)
    (out : List ℚ) (odg : List (List ℚ))
    (hg : p.gain = 0)
    (hd : p.damper_state = List.replicate PITCH_DAMPORDER 0) :
    (FilterSample in_data p out odg).1.damper_state =
        List.replicate PITCH_DAMPORDER 0 ∧
    (FilterSample in_data p out odg).2.1 =
        out.set p.index (in_data p.index) := by
  constructor
  · show p.gain * _ :: p.damper_state.take (PITCH_DAMPORDER - 1) = _
    rw [hg, zero_mul, hd, take_replicate_damp, cons_zero_replicate]
  · show out.set p.index (in_data p.index -
      innerProd (p.gain * _ :: p.damper_state.take (PITCH_DAMPORDER - 1))
        kDampFilter) = _
    rw [hg, zero_mul, hd, take_replicate_damp, cons_zero_replicate,
      innerProd_replicate_zero, sub_zero]

/-- Iterating the per-sample loop with zero gain and zero damper memory
copies the processed input span into the output. -/
theorem FilterSegmentGo_gain0 (in_data : Nat → ℚ) (out0 : List ℚ) :
    ∀ (n : Nat) (p : PitchFilterParam) (out : List ℚ) (odg : List (List ℚ)),
    ZeroGainInv in_data out0 (p, out, odg) →
    p.index + n ≤ out0.length →
    ZeroGainInv in_data out0 (FilterSegmentGo in_data n p out odg) ∧
    (FilterSegmentGo in_data n p out odg).1.index = p.index + n := by
  intro n
  induction n with
  | zero =>
    intro p out odg h hb
    exact ⟨h, rfl⟩
  | succ n ih =>
    intro p out odg h hb
    obtain ⟨hg, hd, hns, hlen, hout⟩ := h
    obtain ⟨hd', hout'⟩ := FilterSample_gain0 in_data p out odg hg hd
    have hidx : p.index < out.length := by
      rw [hlen]
      omega
    have hstep : ZeroGainInv in_data out0 (FilterSample in_data p out odg) := by
      refine ⟨?_, hd', ?_, ?_, ?_⟩
      · rw [FilterSample_gain_eq]
        exact hg
      · rw [FilterSample_num_samples_eq]
        exact hns
      · show (FilterSample in_data p out odg).2.1.length = _
        rw [hout', List.length_set]
        exact hlen
      · intro i
        show (FilterSample in_data p out odg).2.1.getD i 0 = _
        rw [hout', FilterSample_index_eq]
        by_cases hie : i = p.index
        · subst hie
          rw [getD_set_self _ _ _ hidx, if_pos (by omega)]
        · rw [getD_set_ne _ _ _ _ (Ne.symm hie), hout i]
          by_cases hlt : i < p.index
          · rw [if_pos hlt, if_pos (by omega)]
          · rw [if_neg hlt, if_neg (by omega)]
    have hrec := ih (FilterSample in_data p out odg).1
      (FilterSample in_data p out odg).2.1
      (FilterSample in_data p out odg).2.2
      hstep
      (by rw [FilterSample_index_eq]; omega)
    rw [FilterSegmentGo]
    refine ⟨hrec.1, ?_⟩
    rw [hrec.2, FilterSample_index_eq]
    omega

/-- One granule with a zero gain delta preserves the zero-gain invariant
and consumes one granule of samples. -/
theorem RunGranule_gain0 (in_data : Nat → ℚ) (out0 : List ℚ) (ld gd : ℚ)
    (t : PitchFilterParam × List ℚ × List (List ℚ))
    (hgd : gd = 0)
    (h : ZeroGainInv in_data out0 t)
    (hb : t.1.index + PITCH_UPDATE ≤ out0.length) :
    ZeroGainInv in_data out0 (RunGranule in_data ld gd t) ∧
    (RunGranule in_data ld gd t).1.index = t.1.index + PITCH_UPDATE := by
  obtain ⟨p, out, odg⟩ := t
  obtain ⟨hg, hd, hns, hlen, hout⟩ := h
  have hp' : ZeroGainInv in_data out0
      (Update { p with gain := p.gain + gd, lag := p.lag + ld }, out, odg) := by
    refine ⟨?_, ?_, ?_, hlen, ?_⟩
    · rw [Update_gain]
      show p.gain + gd = 0
      rw [hg, hgd, add_zero]
    · rw [Update_damper_state]
      exact hd
    · rw [Update_num_samples]
      exact hns
    · intro i
      rw [Update_index]
      exact hout i
  unfold RunGranule FilterSegment
  dsimp only
  have hns' :
      (Update { p with gain := p.gain + gd, lag := p.lag + ld }).num_samples =
        PITCH_UPDATE := by
    rw [Update_num_samples]
    exact hns
  rw [hns']
  have hseg := FilterSegmentGo_gain0 in_data out0 PITCH_UPDATE
    (Update { p with gain := p.gain + gd, lag := p.lag + ld }) out odg hp'
    (by rw [Update_index]; exact hb)
  refine ⟨hseg.1, ?_⟩
  rw [hseg.2, Update_index]

/-- Folding granules with a zero gain delta preserves the zero-gain
invariant and consumes one granule of samples per fold step. -/
theorem RunGranule_fold_gain0 (in_data : Nat → ℚ) (out0 : List ℚ)
    (ld gd : ℚ) (hgd : gd = 0) :
    ∀ (ks : List Nat) (t : PitchFilterParam × List ℚ × List (List ℚ)),
    ZeroGainInv in_data out0 t →
    t.1.index + PITCH_UPDATE * ks.length ≤ out0.length →
    ZeroGainInv in_data out0
      (ks.foldl (fun b _ => RunGranule in_data ld gd b) t) ∧
    (ks.foldl (fun b _ => RunGranule in_data ld gd b) t).1.index =
      t.1.index + PITCH_UPDATE * ks.length := by
  intro ks
  induction ks with
  | nil =>
    intro t h hb
    exact ⟨h, by simp⟩
  | cons k ks ih =>
    intro t h hb
    have hmul : PITCH_UPDATE * (ks.length + 1) =
        PITCH_UPDATE * ks.length + PITCH_UPDATE := by ring
    have hone := RunGranule_gain0 in_data out0 ld gd t hgd h
      (by simp only [List.length_cons] at hb; omega)
    have hrec := ih (RunGranule in_data ld gd t) hone.1
      (by rw [hone.2]; simp only [List.length_cons] at hb; omega)
    rw [List.foldl_cons]
    refine ⟨hrec.1, ?_⟩
    rw [hrec.2, hone.2]
    simp only [List.length_cons]
    omega

/-- One sub-frame of a zero-gain run: with a zero gain anchor and a zero
gain target, the invariant is preserved, one sub-frame of samples is
consumed, and the outgoing gain anchor is again zero. -/
theorem RunSubframe_gain0 (in_data : Nat → ℚ) (out0 : List ℚ)
    (lags gains2 : List ℚ) (m : Nat)
    (a : (PitchFilterParam × List ℚ × List (List ℚ)) × ℚ × ℚ)
    (h : ZeroGainInv in_data out0 a.1)
    (hog : a.2.2 = 0)
    (hgm : gains2.getD m 0 = 0)
    (hb : a.1.1.index + PITCH_UPDATE * PITCH_GRAN_PER_SUBFRAME ≤
      out0.length) :
    ZeroGainInv in_data out0 (RunSubframe in_data lags gains2 m a).1 ∧
    (RunSubframe in_data lags gains2 m a).1.1.index =
      a.1.1.index + PITCH_UPDATE * PITCH_GRAN_PER_SUBFRAME ∧
    (RunSubframe in_data lags gains2 m a).2.2 = 0 := by
  obtain ⟨⟨p, out, odg⟩, ol, og⟩ := a
  obtain ⟨hg, hd, hns, hlen, hout⟩ := h
  dsimp only at hog hb ⊢
  subst hog
  have hgd : (gains2.getD m 0 - 0) / ((PITCH_GRAN_PER_SUBFRAME : Nat) : ℚ) =
      0 := by
    rw [hgm]
    norm_num
  have hp1 : ZeroGainInv in_data out0
      ({ p with sub_frame := m, lag := ol, gain := 0 }, out, odg) :=
    ⟨rfl, hd, hns, hlen, hout⟩
  unfold RunSubframe
  dsimp only
  have hfold := RunGranule_fold_gain0 in_data out0
    ((lags.getD m 0 - ol) / ((PITCH_GRAN_PER_SUBFRAME : Nat) : ℚ))
    ((gains2.getD m 0 - 0) / ((PITCH_GRAN_PER_SUBFRAME : Nat) : ℚ)) hgd
    (List.range PITCH_GRAN_PER_SUBFRAME)
    ({ p with sub_frame := m, lag := ol, gain := 0 }, out, odg) hp1
    (by rw [List.length_range]; exact hb)
  refine ⟨hfold.1, ?_, hgm⟩
  rw [hfold.2, List.length_range]

/-! ### Claims -/

/-- Claim C2: a gain-search-mode call (`WebRtcIsac_PitchfilterPre_gains`)
leaves the persistent filter state exactly equal to its value before the
call, for every input signal and every lag/gain parameter set. -/
theorem claim2_gain_search_state_unchanged (in_data : Nat → ℚ)
    (out_data : List ℚ) (out_dg : List (List ℚ)) (pf_state : PitchFiltstr)
    (lags gains : List ℚ) :
    (WebRtcIsac_PitchfilterPre_gains in_data out_data out_dg pf_state
      lags gains).state = pf_state := by
  simp [WebRtcIsac_PitchfilterPre_gains, FilterFrame]

/-- Claim C3: the lag-jump guard of the frame controller: when the first
sub-frame's target lag exceeds `PITCH_UPSTEP` times the old lag or falls
below `PITCH_DOWNSTEP` times the old lag, the interpolation anchors are
snapped to the first sub-frame's target lag and gain (and in gain-search
mode the first trial gain multiplier is set to 1.0); otherwise the anchors
keep the persistent values. -/
theorem claim3_lag_jump_guard (old_lag old_gain lag0 gain0 : ℚ)
    (mode : PitchFilterOperation) (gm : List ℚ) :
    ((lag0 > PITCH_UPSTEP * old_lag ∨ lag0 < PITCH_DOWNSTEP * old_lag) →
      SeedAnchors old_lag old_gain lag0 gain0 mode gm =
        (lag0, gain0,
          if mode = PitchFilterOperation.kPitchFilterPreGain then gm.set 0 1
          else gm)) ∧
    (¬(lag0 > PITCH_UPSTEP * old_lag ∨ lag0 < PITCH_DOWNSTEP * old_lag) →
      SeedAnchors old_lag old_gain lag0 gain0 mode gm =
        (old_lag, old_gain, gm)) := by
  constructor <;> intro h <;> simp [SeedAnchors, h]

/-- Witness for claim C3 at concrete inputs: a jumping lag in gain-search
mode snaps the anchors and resets the first multiplier; a close lag keeps
the anchors. -/
theorem claim3_lag_jump_guard_witness :
    SeedAnchors 20 (1/2) 40 (3/4) PitchFilterOperation.kPitchFilterPreGain
        [0, 0, 0, 0] =
      (40, 3/4,
        if PitchFilterOperation.kPitchFilterPreGain =
            PitchFilterOperation.kPitchFilterPreGain then
          ([0, 0, 0, 0] : List ℚ).set 0 1
        else [0, 0, 0, 0]) ∧
    SeedAnchors 20 (1/2) 21 (3/4) PitchFilterOperation.kPitchFilterPre
        [0, 0, 0, 0] =
      (20, 1/2, [0, 0, 0, 0]) :=
  ⟨(claim3_lag_jump_guard 20 (1/2) 40 (3/4)
      PitchFilterOperation.kPitchFilterPreGain [0, 0, 0, 0]).1
    (by unfold PITCH_UPSTEP PITCH_DOWNSTEP; norm_num),
   (claim3_lag_jump_guard 20 (1/2) 21 (3/4)
      PitchFilterOperation.kPitchFilterPre [0, 0, 0, 0]).2
    (by unfold PITCH_UPSTEP PITCH_DOWNSTEP; norm_num)⟩

/-- Claim C4: `Update` computes the integer lag offset as
`lrint(lag + PITCH_FILTDELAY + 0.5)`, the fractional remainder as that
offset minus `lag + PITCH_FILTDELAY`, the interpolation-row index as
`lrint(PITCH_FRACS * remainder - 0.5)`, and selects that row of the
interpolation table as the current coefficients. -/
theorem claim4_update_formula (p : PitchFilterParam) :
    (Update p).lag_offset = lrint (p.lag + PITCH_FILTDELAY + 0.5) ∧
    (Update p).interpol_coeff =
      (kIntrpCoefGet (lrint ((PITCH_FRACS : ℚ) *
          ((lrint (p.lag + PITCH_FILTDELAY + 0.5) : ℚ) -
            (p.lag + PITCH_FILTDELAY)) - 0.5))).getD
        (List.replicate PITCH_FRACORDER 0) := by
  exact ⟨rfl, rfl⟩

unseal Rat.add Rat.mul Rat.inv Rat.sub Rat.ofScientific in
/-- Claim C6: there exists a lag value whose derived fractional bin index
falls outside the interpolation table's range `[0, 7]`, and the (total,
`Option`-valued) table lookup at that index hits its out-of-bounds branch:
the unchecked C table access is reachable with an out-of-range index. -/
theorem claim6_fraction_index_out_of_bounds :
    ∃ lag : ℚ, (fractionIndexOf lag < 0 ∨ 7 < fractionIndexOf lag) ∧
      kIntrpCoefGet (fractionIndexOf lag) = none :=
  ⟨21.5, by decide⟩

/-- Claim C9: in gain-search mode, `Update` adds 0.2 to the current
sub-frame's gain multiplier clamping at 1.0 from above, subtracts 0.2 from
the previous sub-frame's multiplier when the sub-frame index is positive,
and leaves the other multipliers unchanged. -/
theorem claim9_gain_mult_update (p : PitchFilterParam) (j : Nat)
    (hmode : p.mode = PitchFilterOperation.kPitchFilterPreGain)
    (hlen : p.gain_mult.length = 4) (hs : p.sub_frame < 4) (hj : j < 4) :
    (Update p).gain_mult.getD j 0 =
      if j = p.sub_frame then min (p.gain_mult.getD p.sub_frame 0 + 0.2) 1
      else if j + 1 = p.sub_frame then p.gain_mult.getD j 0 - 0.2
      else p.gain_mult.getD j 0 := by
  have hup : (Update p).gain_mult = UpdateGainMult p.gain_mult p.sub_frame := by
    simp [Update, hmode]
  rw [hup]
  exact UpdateGainMult_getD p.gain_mult p.sub_frame j hlen hs hj

unseal Rat.add Rat.mul Rat.inv Rat.sub Rat.ofScientific in
/-- Witness for claim C9 at a concrete working state with sub-frame 2. -/
theorem claim9_gain_mult_update_witness :
    (Update
      { buffer := []
        damper_state := []
        interpol_coeff := []
        gain := 0
        lag := 20
        lag_offset := 0
        sub_frame := 2
        mode := PitchFilterOperation.kPitchFilterPreGain
        num_samples := 0
        index := 0
        damper_state_dg := []
        gain_mult := [0.1, 0.2, 0.95, 0.4] }).gain_mult.getD 2 0 =
      if 2 = 2 then min (([0.1, 0.2, 0.95, 0.4] : List ℚ).getD 2 0 + 0.2) 1
      else if 2 + 1 = 2 then ([0.1, 0.2, 0.95, 0.4] : List ℚ).getD 2 0 - 0.2
      else ([0.1, 0.2, 0.95, 0.4] : List ℚ).getD 2 0 :=
  claim9_gain_mult_update _ 2 rfl rfl (by decide) (by decide)

/-- Claim C10: a post-filter call scales each of the 4 entries of the
caller's gains array in place by `-kEnhancer = -1.3`, and the scaled array
(not the original) is what the call hands back. -/
theorem claim10_post_negates_gains (in_data : Nat → ℚ) (out_data : List ℚ)
    (pf_state : PitchFiltstr) (lags gains : List ℚ)
    (hlen : gains.length = 4) (n : Nat) (hn : n < 4) :
    (WebRtcIsac_PitchfilterPost in_data out_data pf_state lags
        gains).gains.getD n 0 =
      -(1.3) * gains.getD n 0 := by
  obtain ⟨a, b, c, d, hg⟩ : ∃ a b c d, gains = [a, b, c, d] := by
    rcases gains with _ | ⟨a, _ | ⟨b, _ | ⟨c, _ | ⟨d, _ | ⟨e, l⟩⟩⟩⟩⟩ <;>
      simp_all
  have hgains2 :
      (WebRtcIsac_PitchfilterPost in_data out_data pf_state lags
        gains).gains =
      (List.range PITCH_SUBFRAMES).foldl
        (fun g k => g.set k (g.getD k 0 * (-kEnhancer))) gains := by
    simp [WebRtcIsac_PitchfilterPost, FilterFrame]
  rw [hgains2, hg]
  have hfold :
      (List.range PITCH_SUBFRAMES).foldl
        (fun g k => g.set k (g.getD k 0 * (-kEnhancer))) [a, b, c, d] =
      [a * -kEnhancer, b * -kEnhancer, c * -kEnhancer, d * -kEnhancer] := by
    simp [PITCH_SUBFRAMES, List.range_succ]
  rw [hfold]
  interval_cases n <;> simp [kEnhancer] <;> try ring

unseal Rat.add Rat.mul Rat.inv Rat.sub Rat.ofScientific in
/-- Witness for claim C10 at a concrete gains array. -/
theorem claim10_post_negates_gains_witness :
    (WebRtcIsac_PitchfilterPost (fun _ => 0) []
        ⟨[], [], 0, 0⟩ [] [1, 2, 3, 4]).gains.getD 2 0 =
      -(1.3) * ([1, 2, 3, 4] : List ℚ).getD 2 0 :=
  claim10_post_negates_gains (fun _ => 0) [] ⟨[], [], 0, 0⟩ [] [1, 2, 3, 4]
    rfl 2 (by decide)

/-- Claim C1: in every mode, one step of the per-sample filter loop makes
the output sample equal to the input sample minus the damped value — the
inner product of the (freshly shifted and refilled) 5 damper-memory slots
with the fixed damping kernel — and then updates the history buffer at the
current position to the sum of the input and output samples. -/
theorem claim1_sample_step (in_data : Nat → ℚ) (p : PitchFilterParam)
    (out_data : List ℚ) (out_dg : List (List ℚ))
    (hout : p.index < out_data.length)
    (hbuf : p.index + PITCH_BUFFSIZE < p.buffer.length) :
    (FilterSample in_data p out_data out_dg).2.1.getD p.index 0 =
      in_data p.index -
        innerProd (FilterSample in_data p out_data out_dg).1.damper_state
          kDampFilter ∧
    (FilterSample in_data p out_data out_dg).1.buffer.getD
        (p.index + PITCH_BUFFSIZE) 0 =
      in_data p.index +
        (FilterSample in_data p out_data out_dg).2.1.getD p.index 0 := by
  constructor
  · simp only [FilterSample]
    rw [getD_set_self _ _ _ hout]
  · simp only [FilterSample]
    rw [getD_set_self _ _ _ hbuf, getD_set_self _ _ _ hout]

unseal Rat.add Rat.mul Rat.inv Rat.sub Rat.ofScientific in
/-- Witness for claim C1 at a concrete working state and buffers. -/
theorem claim1_sample_step_witness :
    ((0 : Nat) < (List.replicate 240 (0 : ℚ)).length ∧
      0 + PITCH_BUFFSIZE < (List.replicate 454 (0 : ℚ)).length) ∧
    ((FilterSample (fun _ => 1)
        { buffer := List.replicate 454 0
          damper_state := [1, 2, 3, 4, 5]
          interpol_coeff := kDampFilter
          gain := 2
          lag := 20
          lag_offset := 22
          sub_frame := 0
          mode := PitchFilterOperation.kPitchFilterPre
          num_samples := 12
          index := 0
          damper_state_dg := []
          gain_mult := [] }
        (List.replicate 240 0) []).2.1.getD 0 0 =
      (fun (_ : Nat) => (1 : ℚ)) 0 -
        innerProd (FilterSample (fun _ => 1)
          { buffer := List.replicate 454 0
            damper_state := [1, 2, 3, 4, 5]
            interpol_coeff := kDampFilter
            gain := 2
            lag := 20
            lag_offset := 22
            sub_frame := 0
            mode := PitchFilterOperation.kPitchFilterPre
            num_samples := 12
            index := 0
            damper_state_dg := []
            gain_mult := [] }
          (List.replicate 240 0) []).1.damper_state kDampFilter ∧
    (FilterSample (fun _ => 1)
        { buffer := List.replicate 454 0
          damper_state := [1, 2, 3, 4, 5]
          interpol_coeff := kDampFilter
          gain := 2
          lag := 20
          lag_offset := 22
          sub_frame := 0
          mode := PitchFilterOperation.kPitchFilterPre
          num_samples := 12
          index := 0
          damper_state_dg := []
          gain_mult := [] }
        (List.replicate 240 0) []).1.buffer.getD (0 + PITCH_BUFFSIZE) 0 =
      (fun (_ : Nat) => (1 : ℚ)) 0 +
        (FilterSample (fun _ => 1)
          { buffer := List.replicate 454 0
            damper_state := [1, 2, 3, 4, 5]
            interpol_coeff := kDampFilter
            gain := 2
            lag := 20
            lag_offset := 22
            sub_frame := 0
            mode := PitchFilterOperation.kPitchFilterPre
            num_samples := 12
            index := 0
            damper_state_dg := []
            gain_mult := [] }
          (List.replicate 240 0) []).2.1.getD 0 0) :=
  ⟨⟨by decide, by decide⟩,
    claim1_sample_step (fun _ => 1) _ (List.replicate 240 0) []
      (by decide) (by decide)⟩

/-- Claim C8: for any lag/gain parameters, an all-zero input frame
filtered through the pre-filter with an all-zero persistent history and
all-zero damper memory produces an all-zero output frame. -/
theorem claim8_zero_input_zero_output (in_data : Nat → ℚ) (st : PitchFiltstr)
    (lags gains : List ℚ)
    (hin : ∀ i, in_data i = 0)
    (hub : st.ubuf = List.replicate PITCH_BUFFSIZE 0)
    (hyst : st.ystate = List.replicate PITCH_DAMPORDER 0) :
    (WebRtcIsac_PitchfilterPre in_data (List.replicate PITCH_FRAME_LEN 0) st
        lags gains).out = List.replicate PITCH_FRAME_LEN 0 := by
  have hmain := FilterFrameMain_silent in_data st lags gains
    PitchFilterOperation.kPitchFilterPre PITCH_FRAME_LEN []
    (by simp) hub hyst (fun i _ => hin i)
  simp [WebRtcIsac_PitchfilterPre, FilterFrame, hmain]

/-- Witness for claim C8 at a concrete zero input with nonzero lags,
gains and anchors. -/
theorem claim8_zero_input_zero_output_witness :
    (WebRtcIsac_PitchfilterPre (fun _ => 0)
        (List.replicate PITCH_FRAME_LEN 0)
        ⟨List.replicate PITCH_BUFFSIZE 0, List.replicate PITCH_DAMPORDER 0,
          30, 1⟩
        [25, 30.5, 20.25, 40] [0.3, 0.2, 0.1, 0.4]).out =
      List.replicate PITCH_FRAME_LEN 0 :=
  claim8_zero_input_zero_output (fun _ => 0)
    ⟨List.replicate PITCH_BUFFSIZE 0, List.replicate PITCH_DAMPORDER 0, 30, 1⟩
    [25, 30.5, 20.25, 40] [0.3, 0.2, 0.1, 0.4] (fun _ => rfl) rfl rfl

set_option maxHeartbeats 2000000 in
unseal Rat.add Rat.mul Rat.inv Rat.sub Rat.ofScientific in
/-- Claim C5 counterexample: in pre-with-lookahead mode the commit to
persistent state happens before the lookahead segment is filtered, so the
committed damper memory does not reflect the lookahead filtering: on a
concrete input whose only nonzero sample lies in the lookahead span, the
committed damper memory differs from the damper memory after the
lookahead segment. -/
theorem claim5_counterexample :
    (FilterFrame inC5 stC5 lagsC5 gainsC5
        PitchFilterOperation.kPitchFilterPreLa
        (List.replicate (PITCH_FRAME_LEN + QLOOKAHEAD) 0) []).state.ystate ≠
    (FilterFrame inC5 stC5 lagsC5 gainsC5
        PitchFilterOperation.kPitchFilterPreLa
        (List.replicate (PITCH_FRAME_LEN + QLOOKAHEAD) 0) []).params.damper_state := by
  have hmain :
      FilterFrameMain inC5 stC5 lagsC5 gainsC5
        PitchFilterOperation.kPitchFilterPreLa
        (List.replicate (PITCH_FRAME_LEN + QLOOKAHEAD) 0) [] =
      ((pC5main, List.replicate (PITCH_FRAME_LEN + QLOOKAHEAD) 0, []),
        20.25, 1) := by
    rw [FilterFrameMain_silent inC5 stC5 lagsC5 gainsC5
      PitchFilterOperation.kPitchFilterPreLa (PITCH_FRAME_LEN + QLOOKAHEAD) []
      (by simp) rfl rfl
      (by intro i h
          have e : PITCH_FRAME_LEN = 240 := rfl
          rw [e] at h
          simp only [inC5, if_neg (by omega : ¬i = 240)])]
    decide
  simp [FilterFrame, hmain]
  decide

/-- Claim C5 (amended): in pre-with-lookahead mode, the commit to
persistent state precedes the lookahead filtering: the committed buffer
tail, damper memory and final lag/gain anchors are taken from the working
state at the end of the 4 sub-frames, and the lookahead-length segment is
filtered afterwards, as part of the final sub-frame, affecting only the
transient working state (the source performs spec step 7 before step 6). -/
theorem claim5_amended (in_data : Nat → ℚ) (st : PitchFiltstr)
    (lags gains : List ℚ) (out0 : List ℚ) (odg0 : List (List ℚ)) :
    (FilterFrame in_data st lags gains PitchFilterOperation.kPitchFilterPreLa
        out0 odg0).state =
      { ubuf := (((FilterFrameMain in_data st lags gains
            PitchFilterOperation.kPitchFilterPreLa out0
            odg0).1.1.buffer.drop PITCH_FRAME_LEN).take PITCH_BUFFSIZE)
        ystate := (FilterFrameMain in_data st lags gains
            PitchFilterOperation.kPitchFilterPreLa out0 odg0).1.1.damper_state
        oldlagp := (FilterFrameMain in_data st lags gains
            PitchFilterOperation.kPitchFilterPreLa out0 odg0).2.1
        oldgainp := (FilterFrameMain in_data st lags gains
            PitchFilterOperation.kPitchFilterPreLa out0 odg0).2.2 } ∧
    (FilterFrame in_data st lags gains PitchFilterOperation.kPitchFilterPreLa
        out0 odg0).params =
      (FilterSegment in_data
        { (FilterFrameMain in_data st lags gains
            PitchFilterOperation.kPitchFilterPreLa out0 odg0).1.1 with
            sub_frame := PITCH_SUBFRAMES - 1
            num_samples := QLOOKAHEAD }
        (FilterFrameMain in_data st lags gains
          PitchFilterOperation.kPitchFilterPreLa out0 odg0).1.2.1
        (FilterFrameMain in_data st lags gains
          PitchFilterOperation.kPitchFilterPreLa out0 odg0).1.2.2).1 := by
  constructor <;> simp [FilterFrame]

unseal Rat.add Rat.mul Rat.inv Rat.sub Rat.ofScientific in
/-- Claim C7 counterexample: with all four gains zero but a nonzero
persistent damper memory, the pre-filter output differs from the input at
the very first sample: the inherited damper memory keeps feeding the
damping filter for the first few samples. -/
theorem claim7_counterexample :
    (WebRtcIsac_PitchfilterPre (fun _ => 0)
        (List.replicate PITCH_FRAME_LEN 0)
        ⟨List.replicate PITCH_BUFFSIZE 0, [1, 0, 0, 0, 0], 20.25, 0⟩
        [20.25, 20.25, 20.25, 20.25] [0, 0, 0, 0]).out.getD 0 0 ≠
      (fun _ => (0 : ℚ)) 0 := by
  decide

/-- Claim C7 (amended): with all four gains zero, the pre-filter output
equals the input sample for sample, provided the persistent damper memory
and the persistent gain anchor are zero (otherwise the old damper memory,
or the gain interpolation ramping down from the old anchor, still shapes
the first sub-frame). -/
theorem claim7_amended (in_data : Nat → ℚ) (st : PitchFiltstr)
    (lags : List ℚ) (out0 : List ℚ) (i : Nat)
    (hyst : st.ystate = List.replicate PITCH_DAMPORDER 0)
    (hog : st.oldgainp = 0)
    (hlen : out0.length = PITCH_FRAME_LEN)
    (hi : i < PITCH_FRAME_LEN) :
    (WebRtcIsac_PitchfilterPre in_data out0 st lags
        [0, 0, 0, 0]).out.getD i 0 = in_data i := by
  have e240 : PITCH_FRAME_LEN = 240 := rfl
  have e60 : PITCH_UPDATE * PITCH_GRAN_PER_SUBFRAME = 60 := rfl
  have hwrap :
      (WebRtcIsac_PitchfilterPre in_data out0 st lags [0, 0, 0, 0]).out =
      (FilterFrameMain in_data st lags [0, 0, 0, 0]
        PitchFilterOperation.kPitchFilterPre out0 []).1.2.1 := by
    simp [WebRtcIsac_PitchfilterPre, FilterFrame]
  rw [hwrap]
  unfold FilterFrameMain
  dsimp only
  rw [show List.range PITCH_SUBFRAMES = [0, 1, 2, 3] from rfl]
  simp only [List.foldl_cons, List.foldl_nil]
  have hdz := initParams_damper_zero st PitchFilterOperation.kPitchFilterPre
    hyst
  set p0 := initParams st PitchFilterOperation.kPitchFilterPre with hp0
  set sv := SeedAnchors st.oldlagp st.oldgainp (lags.getD 0 0)
    (([0, 0, 0, 0] : List ℚ).getD 0 0) PitchFilterOperation.kPitchFilterPre
    p0.gain_mult with hsv
  have hseed : sv.2.1 = 0 := by
    rw [hsv, hog]
    exact SeedAnchors_gain_zero _ _ _ _
  set a0 := (({ p0 with gain_mult := sv.2.2, num_samples := PITCH_UPDATE },
    out0, ([] : List (List ℚ))), sv.1, sv.2.1) with ha0
  have hix : p0.index = 0 := by
    rw [hp0]
    rfl
  have hg0 : p0.gain = 0 := by
    rw [hp0]
    rfl
  have hinv0 : ZeroGainInv in_data out0 a0.1 := by
    rw [ha0]
    exact ⟨hg0, hdz, rfl, rfl, by
      intro j
      show out0.getD j 0 = if j < p0.index then in_data j else out0.getD j 0
      rw [hix, if_neg (by omega)]⟩
  have hseed0 : a0.2.2 = 0 := by
    rw [ha0]
    exact hseed
  have hidx0 : a0.1.1.index = 0 := by
    rw [ha0]
    show p0.index = 0
    exact hix
  obtain ⟨h0, h0i, h0g⟩ := RunSubframe_gain0 in_data out0 lags [0, 0, 0, 0] 0
    a0 hinv0 hseed0 rfl (by rw [hidx0, hlen]; omega)
  obtain ⟨h1, h1i, h1g⟩ := RunSubframe_gain0 in_data out0 lags [0, 0, 0, 0] 1
    (RunSubframe in_data lags [0, 0, 0, 0] 0 a0) h0 h0g rfl
    (by rw [h0i, hidx0, hlen]; omega)
  obtain ⟨h2, h2i, h2g⟩ := RunSubframe_gain0 in_data out0 lags [0, 0, 0, 0] 2
    (RunSubframe in_data lags [0, 0, 0, 0] 1
      (RunSubframe in_data lags [0, 0, 0, 0] 0 a0)) h1 h1g rfl
    (by rw [h1i, h0i, hidx0, hlen]; omega)
  obtain ⟨h3, h3i, h3g⟩ := RunSubframe_gain0 in_data out0 lags [0, 0, 0, 0] 3
    (RunSubframe in_data lags [0, 0, 0, 0] 2
      (RunSubframe in_data lags [0, 0, 0, 0] 1
        (RunSubframe in_data lags [0, 0, 0, 0] 0 a0))) h2 h2g rfl
    (by rw [h2i, h1i, h0i, hidx0, hlen]; omega)
  have hfinal := h3.2.2.2.2 i
  rw [hfinal, h3i, h2i, h1i, h0i, hidx0, if_pos (by omega)]

/-- Witness for claim C7 (amended) at a nonzero input, nonzero history
and nonzero lag anchors, with zero gains and zero damper memory. -/
theorem claim7_amended_witness :
    (WebRtcIsac_PitchfilterPre (fun j => (j : ℚ) + 1)
        (List.replicate PITCH_FRAME_LEN 0)
        ⟨List.replicate PITCH_BUFFSIZE 1, List.replicate PITCH_DAMPORDER 0,
          30, 0⟩
        [25, 30.5, 20.25, 40] [0, 0, 0, 0]).out.getD 7 0 =
      (fun j => ((j : Nat) : ℚ) + 1) 7 :=
  claim7_amended (fun j => (j : ℚ) + 1)
    ⟨List.replicate PITCH_BUFFSIZE 1, List.replicate PITCH_DAMPORDER 0, 30, 0⟩
    [25, 30.5, 20.25, 40] (List.replicate PITCH_FRAME_LEN 0) 7
    rfl rfl (by simp) (by decide)

end IsacPitch
